import Mathlib

/-
Verification of the allocation / claim state machine of
cluster-api-provider-baremetal (baremetal/machine_manager.go).

The Go source is shallowly embedded as pure Lean functions.  The external
object store (controller-runtime client) appears as an explicit list of
BareMetalHost records for reads, and every Update call issued by an
operation is collected in an explicit write log.  The outcome of the one
optimistic Update of each path is a parameter (`UpdateOutcome`), since the
store may report success, not-found, or another failure.  The per-call
randomness of `chooseHost` (rand.Intn) is a `Nat` parameter used modulo the
candidate count.
-/

set_option autoImplicit false

namespace Capbm

/-! ## Data model (corev1 / capi / capbm / metal3 types as used by the manager) -/

/-- corev1.ObjectReference, restricted to the fields the manager reads/writes. -/
structure ObjectReference where
  kind : String
  «namespace» : String
  name : String
  apiVersion : String
deriving DecidableEq, Repr

/-- capi.MachineAddress: an address type tag plus the address string. -/
structure MachineAddress where
  type : String
  address : String
deriving DecidableEq, Repr

def MachineInternalIP : String := "InternalIP"

def MachineHostName : String := "Hostname"

def MachineInternalDNS : String := "InternalDNS"

/-- capi.MachineStatus (cluster-api Machine), the struct compared by
updateMachineStatus.  Only representative fields are carried: what matters
for the embedding is that it is a distinct Go struct type from
BareMetalMachineStatus. -/
structure MachineStatus where
  addresses : List MachineAddress
  lastUpdated : Option Nat
deriving DecidableEq, Repr

/-- capi.Machine: the cluster-api Machine as read by the manager
(identity, TypeMeta, its own annotations map and status). -/
structure Machine where
  name : String
  «namespace» : String
  kind : String
  apiVersion : String
  annotations : List (String × String)
  status : MachineStatus
deriving DecidableEq, Repr

/-- bmh.Image / capbm image descriptor: URL plus checksum. -/
structure Image where
  url : String
  checksum : String
deriving DecidableEq, Repr

/-- corev1.SecretReference: name and namespace of a user-data secret. -/
structure SecretReference where
  name : String
  «namespace» : String
deriving DecidableEq, Repr

/-- capbm.HostSelectorRequirement: one expression-form selector requirement. -/
structure HostSelectorRequirement where
  key : String
  operator : String
  values : List String
deriving DecidableEq, Repr

/-- capbm.HostSelector: exact-match pairs plus expression-form requirements. -/
structure HostSelector where
  matchLabels : List (String × String)
  matchExpressions : List HostSelectorRequirement
deriving DecidableEq, Repr

/-- capbm.BareMetalMachineSpec as used by the manager. -/
structure BareMetalMachineSpec where
  providerID : Option String
  image : Image
  userData : Option SecretReference
  hostSelector : HostSelector
deriving DecidableEq, Repr

/-- capbm.BareMetalMachineStatus (this repository's api package; the struct
is not under src/, its fields are those the manager touches: error state,
derived addresses, the last-updated stamp). -/
structure BareMetalMachineStatus where
  ready : Bool
  lastUpdated : Option Nat
  addresses : List MachineAddress
  errorMessage : Option String
  errorReason : Option String
deriving DecidableEq, Repr

/-- capbm.BareMetalMachine: identity, annotations map, spec and status. -/
structure BareMetalMachine where
  name : String
  «namespace» : String
  annotations : List (String × String)
  spec : BareMetalMachineSpec
  status : BareMetalMachineStatus
deriving DecidableEq, Repr

/-- bmh.BareMetalHostSpec, restricted to the fields the manager touches. -/
structure BareMetalHostSpec where
  online : Bool
  consumerRef : Option ObjectReference
  image : Option Image
  userData : Option SecretReference
deriving DecidableEq, Repr

/-- bmh.NIC: one observed network interface (only the IP is read). -/
structure NIC where
  ip : String
deriving DecidableEq, Repr

/-- bmh.HardwareDetails: observed hardware facts read by nodeAddresses. -/
structure HardwareDetails where
  nic : List NIC
  hostname : String
deriving DecidableEq, Repr

/-- bmh.ProvisionStatus: the provisioning-state enum is a Go string type. -/
structure ProvisionStatus where
  state : String
deriving DecidableEq, Repr

/-- bmh.BareMetalHostStatus, restricted to the fields the manager reads.
The errorMessage field backs the operator's HasError predicate. -/
structure BareMetalHostStatus where
  provisioning : ProvisionStatus
  hardwareDetails : Option HardwareDetails
  poweredOn : Bool
  errorMessage : String
deriving DecidableEq, Repr

/-- bmh.BareMetalHost: metadata (name, namespace, labels, deletion stamp)
plus spec and status. -/
structure BareMetalHost where
  name : String
  «namespace» : String
  labels : List (String × String)
  deletionTimestamp : Option Nat
  spec : BareMetalHostSpec
  status : BareMetalHostStatus
deriving DecidableEq, Repr

/-! ## metal3 baremetal-operator provisioning states (Go string constants) -/

def StateNone : String := ""

def StateRegistrationError : String := "registration error"

def StateRegistering : String := "registering"

def StateMatchProfile : String := "match profile"

def StateReady : String := "ready"

def StateValidationError : String := "validation error"

def StateProvisioning : String := "provisioning"

def StateProvisioningError : String := "provisioning error"

def StateProvisioned : String := "provisioned"

def StateExternallyProvisioned : String := "externally provisioned"

def StateDeprovisioning : String := "deprovisioning"

def StateInspecting : String := "inspecting"

def StatePowerManagementError : String := "power management error"

def StateDeleting : String := "deleting"

/-- bmh.BareMetalHost.HasError (baremetal-operator): an error is recorded
iff the status error message is non-empty. -/
def BareMetalHost.HasError (h : BareMetalHost) : Bool :=
  h.status.errorMessage ≠ ""

/-- bmh.BareMetalHost.Available (baremetal-operator): a host is available to
be provisioned iff it has no ConsumerRef, is not being deleted, and has no
recorded error.  In particular any host whose ConsumerRef is set is not
available. -/
def BareMetalHost.Available (h : BareMetalHost) : Bool :=
  h.spec.consumerRef.isNone && h.deletionTimestamp.isNone && !h.HasError

/-! ## Association-list operations (Go map reads/writes used by the manager) -/

/-- Go map read `m[k]` with the ok flag: the first entry with the key. -/
def lookupKV (l : List (String × String)) (k : String) : Option String :=
  (l.find? (fun p => p.1 == k)).map (fun p => p.2)

/-- Go map write `m[k] = v`: replace the entry if the key is present,
otherwise add it. -/
def setKV (l : List (String × String)) (k v : String) : List (String × String) :=
  if (l.find? (fun p => p.1 == k)).isSome then
    l.map (fun p => if p.1 == k then (k, v) else p)
  else l ++ [(k, v)]

/-! ## k8s.io/apimachinery label validation and labels.Requirement

Embedded from the apimachinery sources the manager links against.  String
splitting is done by an explicit structural recursion over the character
list, faithful to Go strings.Split with a one-character separator. -/

/-- Go strings.Split with a single-character separator, on char lists. -/
def splitChar (sep : Char) : List Char → List (List Char)
  | [] => [[]]
  | c :: rest =>
    if c == sep then [] :: splitChar sep rest
    else
      match splitChar sep rest with
      | [] => [[c]]
      | part :: parts => (c :: part) :: parts

def isUpperAlpha (c : Char) : Bool := 'A' ≤ c && c ≤ 'Z'

def isLowerAlpha (c : Char) : Bool := 'a' ≤ c && c ≤ 'z'

def isDigitChar (c : Char) : Bool := '0' ≤ c && c ≤ '9'

def isAlphaNum (c : Char) : Bool := isUpperAlpha c || isLowerAlpha c || isDigitChar c

def isNameBodyChar (c : Char) : Bool := isAlphaNum c || c == '-' || c == '_' || c == '.'

/-- The name part of a k8s qualified name: 1 to 63 characters, alphanumeric
at both ends, with alphanumerics, dashes, underscores and dots inside
(validation.IsQualifiedName name-part regexp). -/
def isQualifiedNamePart (cs : List Char) : Bool :=
  !cs.isEmpty && cs.length ≤ 63 && cs.all isNameBodyChar &&
  (match cs.head? with | some c => isAlphaNum c | none => false) &&
  (match cs.getLast? with | some c => isAlphaNum c | none => false)

def isLowerAlphaNum (c : Char) : Bool := isLowerAlpha c || isDigitChar c

/-- validation.IsDNS1123Label: lowercase alphanumerics and dashes,
alphanumeric at both ends, at most 63 characters. -/
def isDNS1123Label (cs : List Char) : Bool :=
  !cs.isEmpty && cs.length ≤ 63 && cs.all (fun c => isLowerAlphaNum c || c == '-') &&
  (match cs.head? with | some c => isLowerAlphaNum c | none => false) &&
  (match cs.getLast? with | some c => isLowerAlphaNum c | none => false)

/-- validation.IsDNS1123Subdomain: dot-separated DNS labels, at most 253
characters. -/
def isDNS1123Subdomain (cs : List Char) : Bool :=
  cs.length ≤ 253 && (splitChar '.' cs).all isDNS1123Label

/-- validation.IsQualifiedName, as used by labels.NewRequirement to validate
a label key: an optional DNS-subdomain prefix separated by one slash from a
qualified name part. -/
def isQualifiedName (s : String) : Bool :=
  match splitChar '/' s.data with
  | [name] => isQualifiedNamePart name
  | [pfx, name] => !pfx.isEmpty && isDNS1123Subdomain pfx && isQualifiedNamePart name
  | _ => false

/-- validation.IsValidLabelValue: empty, or a qualified name part (at most
63 characters of the label-value character set). -/
def isValidLabelValue (s : String) : Bool :=
  s.data.isEmpty || isQualifiedNamePart s.data

/-- Go strconv.ParseInt with base 10 and 64-bit size: optional sign, at
least one digit, all digits, within the int64 range. -/
def parseInt64 (s : String) : Option Int :=
  let signDigits : Int × List Char :=
    match s.data with
    | '-' :: rest => (-1, rest)
    | '+' :: rest => (1, rest)
    | cs => (1, cs)
  let sign := signDigits.1
  let digits := signDigits.2
  if digits.isEmpty then none
  else if digits.all isDigitChar then
    let n : Nat := digits.foldl (fun acc c => acc * 10 + (c.toNat - 48)) 0
    let v : Int := sign * n
    if -(2 ^ 63) ≤ v && v ≤ 2 ^ 63 - 1 then some v else none
  else none

/-- ASCII lowercase folding of a string.  Go strings.ToLower additionally
folds non-ASCII letters, but all recognized operator strings are ASCII, so
acceptance of a selector operator is unchanged. -/
def toLowerAscii (s : String) : String :=
  ⟨s.data.map Char.toLower⟩

/-- labels.Requirement: a validated (key, operator, values) triple.
Operators are the selection-package string constants, already folded to the
form NewRequirement recognizes. -/
structure Requirement where
  key : String
  operator : String
  strValues : List String
deriving DecidableEq, Repr

/-- labels.NewRequirement: validates the key as a qualified name, the
operator against the recognized set with its arity constraints (gt and lt
additionally require integer values), and every value as a label value.
Any failure is a hard error. -/
def newRequirement (key : String) (op : String) (vals : List String) :
    Except String Requirement :=
  if !isQualifiedName key then .error "invalid label key"
  else if op == "in" || op == "notin" then
    if vals.isEmpty then .error "values set cannot be empty for in and notin operators"
    else if vals.all isValidLabelValue then .ok ⟨key, op, vals⟩
    else .error "invalid label value"
  else if op == "=" || op == "==" || op == "!=" then
    if vals.length != 1 then .error "exact-match compatibility requires one single value"
    else if vals.all isValidLabelValue then .ok ⟨key, op, vals⟩
    else .error "invalid label value"
  else if op == "exists" || op == "!" then
    if vals.length != 0 then .error "values set must be empty for exists and does not exist"
    else .ok ⟨key, op, vals⟩
  else if op == "gt" || op == "lt" then
    if vals.length != 1 then .error "for gt and lt operators, exactly one value is required"
    else if vals.any (fun v => (parseInt64 v).isNone) then
      .error "for gt and lt operators, the value must be an integer"
    else if vals.all isValidLabelValue then .ok ⟨key, op, vals⟩
    else .error "invalid label value"
  else .error "operator is not recognized"

/-- labels.Requirement.Matches against a label set. -/
def Requirement.Matches (r : Requirement) (ls : List (String × String)) : Bool :=
  if r.operator == "in" || r.operator == "=" || r.operator == "==" then
    match lookupKV ls r.key with
    | none => false
    | some v => r.strValues.contains v
  else if r.operator == "notin" || r.operator == "!=" then
    match lookupKV ls r.key with
    | none => true
    | some v => !r.strValues.contains v
  else if r.operator == "exists" then (lookupKV ls r.key).isSome
  else if r.operator == "!" then (lookupKV ls r.key).isNone
  else if r.operator == "gt" || r.operator == "lt" then
    match lookupKV ls r.key with
    | none => false
    | some v =>
      match parseInt64 v, r.strValues with
      | some lsValue, [rv] =>
        match parseInt64 rv with
        | some rValue => if r.operator == "gt" then lsValue > rValue else lsValue < rValue
        | none => false
      | _, _ => false
  else false

/-- labels.Selector.Matches for the selector built by chooseHost: the
conjunction of all added requirements (order-independent). -/
def selectorMatches (reqs : List Requirement) (ls : List (String × String)) : Bool :=
  reqs.all (fun r => r.Matches ls)

/-! ## k8s.io/client-go cache key functions -/

/-- cache.SplitMetaNamespaceKey: one part means a name with empty namespace,
two parts mean namespace and name, anything else is a parse error. -/
def SplitMetaNamespaceKey (key : String) : Except String (String × String) :=
  match (splitChar '/' key.data).map (fun cs => (⟨cs⟩ : String)) with
  | [name] => .ok ("", name)
  | [ns, name] => .ok (ns, name)
  | _ => .error "unexpected key format"

/-- cache.MetaNamespaceKeyFunc applied to a host: namespace/name when the
namespace is non-empty, otherwise just the name. -/
def MetaNamespaceKeyFunc (h : BareMetalHost) : String :=
  if h.«namespace».length > 0 then h.«namespace» ++ "/" ++ h.name else h.name

/-! ## machine_manager.go -/

/-- The HostAnnotation constant: key of the Machine annotation referencing
the claimed BareMetalHost. -/
def HostAnnotKey : String := "metal3.io/BareMetalHost"

/-- requeueAfter: the default retry delay, in seconds. -/
def requeueAfter : Nat := 30

/-- Result of a lifecycle verb: plain success, a RequeueAfterError retry
signal carrying its delay in seconds, or a genuine error. -/
inductive OpResult where
  | ok
  | requeue (after : Nat)
  | err (msg : String)
deriving DecidableEq, Repr

/-- Outcome of the single optimistic client.Update call of a path, as
reported by the external store. -/
inductive UpdateOutcome where
  | ok
  | notFound
  | err (msg : String)
deriving DecidableEq, Repr

/-- consumerRefMatches: the consumer reference and the machine metadata
match on name, namespace, kind and APIVersion. -/
def consumerRefMatches (consumer : ObjectReference) (machine : Machine) : Bool :=
  if consumer.name ≠ machine.name then false
  else if consumer.«namespace» ≠ machine.«namespace» then false
  else if consumer.kind ≠ machine.kind then false
  else if consumer.apiVersion ≠ machine.apiVersion then false
  else true

/-- client.List with a namespace option: the store's records in the given
namespace, in store order. -/
def listHosts (store : List BareMetalHost) (ns : String) : List BareMetalHost :=
  store.filter (fun h => h.«namespace» == ns)

/-- client.Get by namespace and name: absent is a valid outcome. -/
def getHostByKey (store : List BareMetalHost) (ns hostName : String) :
    Option BareMetalHost :=
  store.find? (fun h => h.name == hostName && h.«namespace» == ns)

/-- getHost: resolve the machine's host annotation to a durable key, split
it and look the host up; a missing annotation or an absent host is ok-none,
a malformed key is an error. -/
def getHost (m : Machine) (store : List BareMetalHost) :
    Except String (Option BareMetalHost) :=
  match lookupKV m.annotations HostAnnotKey with
  | none => .ok none
  | some hostKey =>
    match SplitMetaNamespaceKey hostKey with
    | .error e => .error e
    | .ok (hostNamespace, hostName) => .ok (getHostByKey store hostNamespace hostName)

/-- The requirement chooseHost builds for one expression-form selector
entry: the operator string is folded to lower case before validation. -/
def exprRequirement (key : String) (op : String) (vals : List String) :
    Except String Requirement :=
  newRequirement key (toLowerAscii op) vals

/-- chooseHost's MatchLabels loop: one Equals requirement per pair, aborting
at the first construction failure.  Go iterates the MatchLabels map in
unspecified order; selector matching is a conjunction and construction
failure is existence of a failing pair, both order-independent, so a list
in fixed order is a faithful model. -/
def matchLabelReqs : List (String × String) → Except String (List Requirement)
  | [] => .ok []
  | (labelKey, labelVal) :: rest =>
    match newRequirement labelKey "=" [labelVal] with
    | .error e => .error e
    | .ok r =>
      match matchLabelReqs rest with
      | .error e => .error e
      | .ok rs => .ok (r :: rs)

/-- chooseHost's MatchExpressions loop, aborting at the first construction
failure. -/
def matchExprReqs : List HostSelectorRequirement → Except String (List Requirement)
  | [] => .ok []
  | req :: rest =>
    match exprRequirement req.key req.operator req.values with
    | .error e => .error e
    | .ok r =>
      match matchExprReqs rest with
      | .error e => .error e
      | .ok rs => .ok (r :: rs)

/-- The full requirement list chooseHost adds to its selector: MatchLabels
requirements followed by MatchExpressions requirements. -/
def hostRequirements (bm : BareMetalMachine) : Except String (List Requirement) :=
  match matchLabelReqs bm.spec.hostSelector.matchLabels with
  | .error e => .error e
  | .ok rs1 =>
    match matchExprReqs bm.spec.hostSelector.matchExpressions with
    | .error e => .error e
    | .ok rs2 => .ok (rs1 ++ rs2)

/-- chooseHost's host loop: available hosts that match the selector are
collected as candidates; a non-available host whose ConsumerRef matches the
machine is returned immediately (inl), ending the scan. -/
def chooseHostLoop (m : Machine) (reqs : List Requirement) :
    List BareMetalHost → BareMetalHost ⊕ List BareMetalHost
  | [] => .inr []
  | host :: rest =>
    if host.Available then
      match chooseHostLoop m reqs rest with
      | .inl found => .inl found
      | .inr avail =>
        if selectorMatches reqs host.labels then .inr (host :: avail) else .inr avail
    else
      match host.spec.consumerRef with
      | some consumer =>
        if consumerRefMatches consumer m then .inl host
        else chooseHostLoop m reqs rest
      | none => chooseHostLoop m reqs rest

/-- chooseHost: list the hosts of the machine's namespace, build the
selector requirements (hard error on any failure), scan the hosts, and
pick a pseudo-random candidate (rand.Intn modelled as randIdx modulo the
candidate count).  The second component is the write log: chooseHost issues
no Update call. -/
def chooseHost (m : Machine) (bm : BareMetalMachine) (store : List BareMetalHost)
    (randIdx : Nat) : Except String (Option BareMetalHost) × List BareMetalHost :=
  let hosts := listHosts store m.«namespace»
  match hostRequirements bm with
  | .error e => (.error e, [])
  | .ok reqs =>
    match chooseHostLoop m reqs hosts with
    | .inl found => (.ok (some found), [])
    | .inr avail =>
      if hlen : avail.length = 0 then (.ok none, [])
      else
        (.ok (some (avail.get ⟨randIdx % avail.length,
          Nat.mod_lt _ (Nat.pos_of_ne_zero hlen)⟩)), [])

/-- The host value setHostSpec builds before its Update call: image and
user-data are written only onto a host with no image yet (an unset
user-data namespace defaulting to the machine's namespace); the
ConsumerRef is set to the machine's identity and Online to true. -/
def setHostSpecHost (m : Machine) (bm : BareMetalMachine) (host : BareMetalHost) :
    BareMetalHost :=
  let spec1 :=
    if host.spec.image.isNone then
      let userData :=
        match bm.spec.userData with
        | some u =>
          some (if u.«namespace» == "" then { u with «namespace» := m.«namespace» } else u)
        | none => none
      { host.spec with
        image := some { url := bm.spec.image.url, checksum := bm.spec.image.checksum }
        userData := userData }
    else host.spec
  { host with
    spec :=
      { spec1 with
        consumerRef := some
          { kind := "Machine"
            name := m.name
            «namespace» := m.«namespace»
            apiVersion := m.apiVersion }
        online := true } }

/-- setHostSpec: build the claimed host value and issue the single Update
call; the store's outcome is surfaced unchanged.  Components: the host
value after mutation, the returned error, the write log. -/
def setHostSpec (m : Machine) (bm : BareMetalMachine) (host : BareMetalHost)
    (upd : UpdateOutcome) : BareMetalHost × Except String Unit × List BareMetalHost :=
  let host := setHostSpecHost m bm host
  match upd with
  | .ok => (host, .ok (), [host])
  | .notFound => (host, .error "not found", [host])
  | .err e => (host, .error e, [host])

/-- ensureAnnotation of the source: make sure the BareMetalMachine has the
host's durable key under the host annotation, overwriting a stray value;
already-exact is a no-op.  Only the in-memory machine is changed — the
source's store write is commented out (done by Close). -/
def ensureAnnot (bm : BareMetalMachine) (host : BareMetalHost) : BareMetalMachine :=
  let hostKey := MetaNamespaceKeyFunc host
  match lookupKV bm.annotations HostAnnotKey with
  | some existing =>
    if existing == hostKey then bm
    else { bm with annotations := setKV bm.annotations HostAnnotKey hostKey }
  | none => { bm with annotations := setKV bm.annotations HostAnnotKey hostKey }

/-- capierrors.InvalidConfigurationMachineError, the one reason setError
records. -/
def InvalidConfigurationMachineError : String := "InvalidConfiguration"

/-- setError: record the message and the invalid-configuration reason on
the BareMetalMachine status. -/
def setError (bm : BareMetalMachine) (message : String) : BareMetalMachine :=
  { bm with status :=
      { bm.status with
        errorMessage := some message
        errorReason := some InvalidConfigurationMachineError } }

/-- clearError: remove error message and reason if either is set. -/
def clearError (bm : BareMetalMachine) : BareMetalMachine :=
  if bm.status.errorMessage.isSome || bm.status.errorReason.isSome then
    { bm with status := { bm.status with errorMessage := none, errorReason := none } }
  else bm

/-- nodeAddresses: one internal-IP entry per NIC in observation order, then
a hostname entry and an internal-DNS entry when a hostname was observed;
empty without hardware details. -/
def nodeAddresses (host : Option BareMetalHost) : List MachineAddress :=
  match host with
  | none => []
  | some host =>
    match host.status.hardwareDetails with
    | none => []
    | some hw =>
      let nicAddrs := hw.nic.map (fun n => { type := MachineInternalIP, address := n.ip })
      if hw.hostname ≠ "" then
        nicAddrs ++
          [{ type := MachineHostName, address := hw.hostname },
           { type := MachineInternalDNS, address := hw.hostname }]
      else nicAddrs

/-- equality.Semantic.DeepEqual as invoked by updateMachineStatus: the
source compares mgr.Machine.Status (a cluster-api capi.MachineStatus value)
with machineCopy.Status (a capbm.BareMetalMachineStatus value copied from
the BareMetalMachine).  Go reflect-based deep equality of values of two
distinct struct types is never true, whatever the field contents, so the
comparison the source performs is constantly false. -/
def semanticDeepEqualStatusCross (_ : MachineStatus) (_ : BareMetalMachineStatus) :
    Bool := false

/-- updateMachineStatus: derive the address list, compare as the source
does (mgr.Machine.Status against the copied BareMetalMachine status with
the new addresses), and on inequality stamp LastUpdated (metav1.Now
modelled as the parameter now) and store the addresses. -/
def updateMachineStatus (m : Machine) (bm : BareMetalMachine) (host : BareMetalHost)
    (now : Nat) : BareMetalMachine :=
  let addrs := nodeAddresses (some host)
  let machineCopyStatus := { bm.status with addresses := addrs }
  if semanticDeepEqualStatusCross m.status machineCopyStatus then bm
  else { bm with status := { bm.status with lastUpdated := some now, addresses := addrs } }

/-- The host value Delete builds when clearing the provisioning payload:
image, Online and user-data cleared, everything else (ConsumerRef included)
unchanged. -/
def clearPayload (host : BareMetalHost) : BareMetalHost :=
  { host with spec := { host.spec with image := none, online := false, userData := none } }

/-- The host value Delete builds in its release phase: ConsumerRef cleared,
everything else unchanged. -/
def clearConsumerRef (host : BareMetalHost) : BareMetalHost :=
  { host with spec := { host.spec with consumerRef := none } }

/-- Delete's waiting flag: it starts true; the six never-truly-provisioned
states set it false; externally-provisioned sets it to PoweredOn; every
other state leaves it true. -/
def deleteWaiting (host : BareMetalHost) : Bool :=
  if host.status.provisioning.state == StateRegistrationError
      || host.status.provisioning.state == StateRegistering
      || host.status.provisioning.state == StateMatchProfile
      || host.status.provisioning.state == StateInspecting
      || host.status.provisioning.state == StateReady
      || host.status.provisioning.state == StateValidationError then
    false
  else if host.status.provisioning.state == StateExternallyProvisioned then
    host.status.poweredOn
  else true

/-- Result of Delete: the provider id, the outcome, and the write log (the
host values passed to client.Update). -/
structure DeleteOut where
  providerId : String
  result : OpResult
  writes : List BareMetalHost
deriving DecidableEq, Repr

/-- Delete: resolve the binding; done when there is none or the ConsumerRef
belongs to another machine; with a matching ConsumerRef first clear any
provisioning payload (Update, not-found tolerated, zero-delay requeue),
then once the payload is gone wait on the provisioning state, and when not
waiting clear the ConsumerRef (Update, not-found tolerated) and succeed. -/
def Delete (m : Machine) (store : List BareMetalHost) (upd : UpdateOutcome) : DeleteOut :=
  match getHost m store with
  | .error e => { providerId := "", result := .err e, writes := [] }
  | .ok none => { providerId := "", result := .ok, writes := [] }
  | .ok (some host) =>
    match host.spec.consumerRef with
    | none => { providerId := "", result := .ok, writes := [] }
    | some consumer =>
      if !consumerRefMatches consumer m then
        { providerId := "", result := .ok, writes := [] }
      else if host.spec.image.isSome || host.spec.online || host.spec.userData.isSome then
        match upd with
        | .err e =>
          { providerId := (clearPayload host).name, result := .err e
            writes := [clearPayload host] }
        | _ =>
          { providerId := (clearPayload host).name, result := .requeue 0
            writes := [clearPayload host] }
      else if deleteWaiting host then
        { providerId := host.name, result := .requeue requeueAfter, writes := [] }
      else
        match upd with
        | .err e =>
          { providerId := host.name, result := .err e, writes := [clearConsumerRef host] }
        | _ =>
          { providerId := host.name, result := .ok, writes := [clearConsumerRef host] }

/-- Modelled from the spec: capbm.BareMetalMachineSpec.IsValid belongs to
this repository's api package, which is not under src/.  Per the spec the
provisioning descriptor is "an OS image to provision" carrying "image
URL+checksum", and Create must "validate the Machine's provisioning
descriptor"; the descriptor is invalid when either field is missing. -/
def BareMetalMachineSpec.IsValid (s : BareMetalMachineSpec) : Except String Unit :=
  if s.image.url == "" then .error "Missing Image.URL in ProviderSpec"
  else if s.image.checksum == "" then .error "Missing Image.Checksum in ProviderSpec"
  else .ok ()

/-- Result of Create: the provider id, the outcome, the BareMetalMachine
after its in-memory mutations, and the write log. -/
structure CreateOut where
  providerId : String
  result : OpResult
  bm : BareMetalMachine
  writes : List BareMetalHost
deriving DecidableEq, Repr

/-- The part of Create after validation and clearError: resolve an
existing binding, else choose a host (absent means a 30 second requeue),
then setHostSpec (its Update outcome surfaced unchanged), ensure the
annotation and refresh the derived status. -/
def createMain (m : Machine) (bm : BareMetalMachine) (store : List BareMetalHost)
    (randIdx : Nat) (upd : UpdateOutcome) (now : Nat) : CreateOut :=
  match getHost m store with
  | .error e => { providerId := "", result := .err e, bm := bm, writes := [] }
  | .ok ohost =>
    let chosen : Except String (Option BareMetalHost) :=
      match ohost with
      | some host => .ok (some host)
      | none => (chooseHost m bm store randIdx).1
    match chosen with
    | .error e => { providerId := "", result := .err e, bm := bm, writes := [] }
    | .ok none => { providerId := "", result := .requeue requeueAfter, bm := bm, writes := [] }
    | .ok (some host) =>
      let providerId := host.name
      let hostW := setHostSpecHost m bm host
      match upd with
      | .ok =>
        let bm := ensureAnnot bm hostW
        let bm := updateMachineStatus m bm hostW now
        { providerId := providerId, result := .ok, bm := bm, writes := [hostW] }
      | .notFound =>
        { providerId := providerId, result := .err "not found", bm := bm, writes := [hostW] }
      | .err e =>
        { providerId := providerId, result := .err e, bm := bm, writes := [hostW] }

/-- Create: validate the provisioning descriptor — on failure record the
error state and return success without retry; on success clear any prior
error state and run the allocation sequence. -/
def Create (m : Machine) (bm : BareMetalMachine) (store : List BareMetalHost)
    (randIdx : Nat) (upd : UpdateOutcome) (now : Nat) : CreateOut :=
  match bm.spec.IsValid with
  | .error e => { providerId := "", result := .ok, bm := setError bm e, writes := [] }
  | .ok _ => createMain m (clearError bm) store randIdx upd now

/-! ## Derived predicates used by the theorems -/

deriving instance DecidableEq for Except

/-- A host whose ConsumerRef is set and matches the machine's identity:
exactly the early-return test of chooseHost's loop. -/
def hasMatchingConsumerRef (m : Machine) (h : BareMetalHost) : Bool :=
  match h.spec.consumerRef with
  | some c => consumerRefMatches c m
  | none => false

/-- Whether an Except value is an error. -/
def exceptHasError {α : Type} : Except String α → Bool
  | .error _ => true
  | .ok _ => false

/-- The recognized selection-operator strings of labels.NewRequirement. -/
def recognizedOp (op : String) : Bool :=
  op == "in" || op == "notin" || op == "=" || op == "==" || op == "!="
    || op == "exists" || op == "!" || op == "gt" || op == "lt"

/-- The six provisioning states Delete treats as never truly provisioned. -/
def notProvisionedState (s : String) : Bool :=
  s == StateRegistrationError || s == StateRegistering || s == StateMatchProfile
    || s == StateInspecting || s == StateReady || s == StateValidationError

/-! ## Sample records used by witnesses and counterexamples -/

/-- Sample capi Machine m1 in namespace ns, no annotations. -/
def mS : Machine :=
  { name := "m1", «namespace» := "ns", kind := "Machine",
    apiVersion := "cluster.x-k8s.io/v1alpha2", annotations := [],
    status := { addresses := [], lastUpdated := none } }

/-- The sample machine with the host annotation pointing at ns/host1. -/
def mAnnS : Machine := { mS with annotations := [(HostAnnotKey, "ns/host1")] }

/-- ObjectReference naming the sample machine's identity. -/
def refS : ObjectReference :=
  { kind := "Machine", «namespace» := "ns", name := "m1",
    apiVersion := "cluster.x-k8s.io/v1alpha2" }

/-- Sample host claimed by the sample machine, payload still present. -/
def hostS : BareMetalHost :=
  { name := "host1", «namespace» := "ns", labels := [("tier", "core")],
    deletionTimestamp := none,
    spec := { online := true, consumerRef := some refS,
              image := some { url := "http://img", checksum := "abc" }, userData := none },
    status := { provisioning := { state := StateProvisioned },
                hardwareDetails := none, poweredOn := true, errorMessage := "" } }

/-- A second host, also carrying the sample machine's ConsumerRef. -/
def hostS2 : BareMetalHost := { hostS with name := "host2" }

/-- Sample BareMetalMachine matching mS, trivial selector, valid image. -/
def bmS : BareMetalMachine :=
  { name := "m1", «namespace» := "ns", annotations := [],
    spec := { providerID := none, image := { url := "http://img", checksum := "abc" },
              userData := none,
              hostSelector := { matchLabels := [], matchExpressions := [] } },
    status := { ready := false, lastUpdated := none, addresses := [],
                errorMessage := none, errorReason := none } }

/-- The sample BareMetalMachine with a malformed selector operator. -/
def bmBadSel : BareMetalMachine :=
  { bmS with spec := { bmS.spec with hostSelector :=
      { matchLabels := [], matchExpressions := [⟨"k", "Foo", ["v"]⟩] } } }

/-! ## C1 -/

/-- Hosts with a set ConsumerRef are never Available. -/
theorem available_eq_false_of_consumerRef (h : BareMetalHost) (c : ObjectReference)
    (hc : h.spec.consumerRef = some c) : h.Available = false := by
  simp [BareMetalHost.Available, hc]

/-- chooseHost's loop returns the first host of the scan whose ConsumerRef
matches the machine, whenever one exists. -/
theorem chooseHostLoop_find (m : Machine) (reqs : List Requirement)
    (hosts : List BareMetalHost) (H : BareMetalHost)
    (hfind : hosts.find? (hasMatchingConsumerRef m) = some H) :
    chooseHostLoop m reqs hosts = .inl H := by
  induction hosts with
  | nil => simp at hfind
  | cons h rest ih =>
    by_cases hm : hasMatchingConsumerRef m h = true
    · rw [List.find?_cons_of_pos _ hm] at hfind
      obtain rfl : h = H := by injection hfind
      obtain ⟨c, hc, hcm⟩ : ∃ c, h.spec.consumerRef = some c ∧ consumerRefMatches c m = true := by
        unfold hasMatchingConsumerRef at hm
        cases hcr : h.spec.consumerRef with
        | none => rw [hcr] at hm; exact absurd hm (by simp)
        | some c => rw [hcr] at hm; exact ⟨c, rfl, hm⟩
      have hav := available_eq_false_of_consumerRef h c hc
      simp [chooseHostLoop, hav, hc, hcm]
    · rw [List.find?_cons_of_neg _ hm] at hfind
      have hrest := ih hfind
      have hb : hasMatchingConsumerRef m h = false := by simpa using hm
      cases hcr : h.spec.consumerRef with
      | none =>
        by_cases hav : h.Available = true
        · simp [chooseHostLoop, hav, hrest]
        · have hav' : h.Available = false := by simpa using hav
          simp [chooseHostLoop, hav', hcr, hrest]
      | some c =>
        have hcm : consumerRefMatches c m = false := by
          unfold hasMatchingConsumerRef at hb; rw [hcr] at hb; exact hb
        have hav := available_eq_false_of_consumerRef h c hcr
        simp [chooseHostLoop, hav, hcr, hcm, hrest]

/-- C1 (amended): whenever the selector requirements build successfully and
H is the first host of the listed namespace whose ConsumerRef matches the
machine's identity (name, namespace, kind, APIVersion), chooseHost returns
H — whatever its availability-relevant fields or labels — and issues no
store write. -/
theorem chooseHost_returns_existing_consumer (m : Machine) (bm : BareMetalMachine)
    (store : List BareMetalHost) (randIdx : Nat) (H : BareMetalHost)
    (reqs : List Requirement)
    (hreqs : hostRequirements bm = .ok reqs)
    (hfind : (listHosts store m.«namespace»).find? (hasMatchingConsumerRef m) = some H) :
    chooseHost m bm store randIdx = (.ok (some H), []) := by
  have hloop := chooseHostLoop_find m reqs (listHosts store m.«namespace») H hfind
  simp [chooseHost, hreqs, hloop]

/-- C1 witness: concrete machine, empty selector, single claimed host. -/
theorem chooseHost_returns_existing_consumer_witness :
    chooseHost mS bmS [hostS] 0 = (.ok (some hostS), []) :=
  chooseHost_returns_existing_consumer mS bmS [hostS] 0 hostS [] (by decide) (by decide)

/-- C1 counterexample to the claim as stated: with a malformed selector
operator, chooseHost errors instead of returning the ConsumerRef-matching
host; and with two hosts both matching, the second matching host is not the
one returned. -/
theorem chooseHost_existing_consumer_cex :
    (hasMatchingConsumerRef mS hostS = true ∧
      (chooseHost mS bmBadSel [hostS] 0).1 ≠ .ok (some hostS)) ∧
    (hasMatchingConsumerRef mS hostS2 = true ∧
      chooseHost mS bmS [hostS, hostS2] 0 = (.ok (some hostS), []) ∧
      hostS ≠ hostS2) := by
  decide

/-! ## C2 -/

/-- Observed hardware facts of the sample host: one NIC and a hostname. -/
def hardwareS : HardwareDetails := { nic := [{ ip := "10.0.0.1" }], hostname := "bm1" }

/-- The sample host with hardware details reported. -/
def hostHWS : BareMetalHost :=
  { hostS with status :=
      { provisioning := { state := StateProvisioned },
        hardwareDetails := some hardwareS, poweredOn := true, errorMessage := "" } }

/-- A BareMetalMachine whose stored status already equals the status that
updateMachineStatus derives from hostHWS. -/
def bmSameS : BareMetalMachine :=
  { bmS with status :=
      { ready := false, lastUpdated := none,
        addresses := [{ type := "InternalIP", address := "10.0.0.1" },
                      { type := "Hostname", address := "bm1" },
                      { type := "InternalDNS", address := "bm1" }],
        errorMessage := none, errorReason := none } }

/-- C2: the code contradicts the claim.  The source's structural-equality
guard compares mgr.Machine.Status (a capi.MachineStatus) with a copy of the
BareMetalMachine's status — two distinct Go struct types, never deeply
equal — so even when the derived address status is structurally equal to
the previously stored status the machine is still modified: LastUpdated is
stamped on every call. -/
theorem updateMachineStatus_stamps_despite_equal_status :
    nodeAddresses (some hostHWS) = bmSameS.status.addresses ∧
    { bmSameS.status with addresses := nodeAddresses (some hostHWS) } = bmSameS.status ∧
    (updateMachineStatus mS bmSameS hostHWS 99).status.lastUpdated = some 99 ∧
    bmSameS.status.lastUpdated = none ∧
    updateMachineStatus mS bmSameS hostHWS 99 ≠ bmSameS := by
  decide

/-! ## C3 -/

/-- C3: with a binding whose ConsumerRef matches the machine and a host
still carrying provisioning payload, Delete clears image, Online and
user-data, issues exactly that one store write, returns the zero-delay
retry signal, and leaves the ConsumerRef untouched. -/
theorem Delete_payload_clear_requeues (m : Machine) (store : List BareMetalHost)
    (H : BareMetalHost) (c : ObjectReference)
    (hget : getHost m store = .ok (some H))
    (hcons : H.spec.consumerRef = some c)
    (hmatch : consumerRefMatches c m = true)
    (hpayload : (H.spec.image.isSome || H.spec.online || H.spec.userData.isSome) = true) :
    Delete m store .ok =
      { providerId := H.name, result := .requeue 0, writes := [clearPayload H] } ∧
    (clearPayload H).spec.consumerRef = some c ∧
    (clearPayload H).spec.image = none ∧
    (clearPayload H).spec.online = false ∧
    (clearPayload H).spec.userData = none := by
  refine ⟨?_, ?_, rfl, rfl, rfl⟩
  · simp [Delete, hget, hcons, hmatch, hpayload, clearPayload]
  · simp [clearPayload, hcons]

/-- C3 witness: the annotated sample machine and the claimed sample host
with image still set. -/
theorem Delete_payload_clear_requeues_witness :
    Delete mAnnS [hostS] .ok =
      { providerId := hostS.name, result := .requeue 0, writes := [clearPayload hostS] } ∧
    (clearPayload hostS).spec.consumerRef = some refS ∧
    (clearPayload hostS).spec.image = none ∧
    (clearPayload hostS).spec.online = false ∧
    (clearPayload hostS).spec.userData = none :=
  Delete_payload_clear_requeues mAnnS [hostS] hostS refS (by decide) (by decide)
    (by decide) (by decide)

/-! ## C4 -/

/-- C4: Delete performs no store write and returns plain success whenever
the machine has no resolvable binding (no annotation, or the annotated host
absent, or the bound host's ConsumerRef empty) or the bound host's
ConsumerRef identifies a different machine. -/
theorem Delete_noop_without_own_binding (m : Machine) (store : List BareMetalHost)
    (upd : UpdateOutcome)
    (h : getHost m store = .ok none ∨
      (∃ H, getHost m store = .ok (some H) ∧ H.spec.consumerRef = none) ∨
      (∃ H c, getHost m store = .ok (some H) ∧ H.spec.consumerRef = some c ∧
        consumerRefMatches c m = false)) :
    Delete m store upd = { providerId := "", result := .ok, writes := [] } := by
  rcases h with h | ⟨H, hget, hcr⟩ | ⟨H, c, hget, hcr, hcm⟩
  · simp [Delete, h]
  · simp [Delete, hget, hcr]
  · simp [Delete, hget, hcr, hcm]

/-- C4 witness: the sample machine without any annotation, a populated
store, and an arbitrary update outcome. -/
theorem Delete_noop_without_own_binding_witness :
    Delete mS [hostS] (UpdateOutcome.err "boom") =
      { providerId := "", result := .ok, writes := [] } :=
  Delete_noop_without_own_binding mS [hostS] (.err "boom") (Or.inl (by decide))

/-! ## C5 and C10: the release phase of Delete -/

/-- With a matching ConsumerRef and no remaining payload, Delete reduces to
the waiting decision: requeue while waiting, otherwise clear the
ConsumerRef and surface the update outcome (not-found tolerated). -/
theorem Delete_release_phase (m : Machine) (store : List BareMetalHost)
    (H : BareMetalHost) (c : ObjectReference) (upd : UpdateOutcome)
    (hget : getHost m store = .ok (some H))
    (hcons : H.spec.consumerRef = some c)
    (hmatch : consumerRefMatches c m = true)
    (himg : H.spec.image = none) (hon : H.spec.online = false)
    (hud : H.spec.userData = none) :
    Delete m store upd =
      if deleteWaiting H then
        { providerId := H.name, result := .requeue requeueAfter, writes := [] }
      else
        match upd with
        | .err e => { providerId := H.name, result := .err e, writes := [clearConsumerRef H] }
        | _ => { providerId := H.name, result := .ok, writes := [clearConsumerRef H] } := by
  simp [Delete, hget, hcons, hmatch, himg, hon, hud]

/-- The six never-provisioned states decide waiting negatively. -/
theorem deleteWaiting_of_notProvisioned (H : BareMetalHost)
    (h : notProvisionedState H.status.provisioning.state = true) :
    deleteWaiting H = false := by
  unfold notProvisionedState at h
  simp [deleteWaiting, h]

/-- In the externally-provisioned state, waiting equals PoweredOn. -/
theorem deleteWaiting_of_externallyProvisioned (H : BareMetalHost)
    (h : H.status.provisioning.state = StateExternallyProvisioned) :
    deleteWaiting H = H.status.poweredOn := by
  unfold deleteWaiting
  rw [h]
  simp [StateExternallyProvisioned, StateRegistrationError, StateRegistering,
    StateMatchProfile, StateInspecting, StateReady, StateValidationError]

/-- Any other provisioning state leaves the waiting flag true. -/
theorem deleteWaiting_of_other (H : BareMetalHost)
    (h1 : notProvisionedState H.status.provisioning.state = false)
    (h2 : H.status.provisioning.state ≠ StateExternallyProvisioned) :
    deleteWaiting H = true := by
  unfold notProvisionedState at h1
  have h2' : (H.status.provisioning.state == StateExternallyProvisioned) = false := by
    simpa using h2
  simp [deleteWaiting, h1, h2']

/-- C5: the deprovision-complete protocol of Delete.  With a matching
ConsumerRef and no remaining payload: the six never-truly-provisioned
states release immediately (ConsumerRef cleared, one write, success);
externally-provisioned requeues while PoweredOn and releases once power is
off; every other state requeues without mutating the host. -/
theorem Delete_release_protocol (m : Machine) (store : List BareMetalHost)
    (H : BareMetalHost) (c : ObjectReference)
    (hget : getHost m store = .ok (some H))
    (hcons : H.spec.consumerRef = some c)
    (hmatch : consumerRefMatches c m = true)
    (himg : H.spec.image = none) (hon : H.spec.online = false)
    (hud : H.spec.userData = none) :
    (notProvisionedState H.status.provisioning.state = true →
      Delete m store .ok =
        { providerId := H.name, result := .ok, writes := [clearConsumerRef H] }) ∧
    (H.status.provisioning.state = StateExternallyProvisioned →
      (H.status.poweredOn = true →
        Delete m store .ok =
          { providerId := H.name, result := .requeue requeueAfter, writes := [] }) ∧
      (H.status.poweredOn = false →
        Delete m store .ok =
          { providerId := H.name, result := .ok, writes := [clearConsumerRef H] })) ∧
    ((notProvisionedState H.status.provisioning.state = false ∧
        H.status.provisioning.state ≠ StateExternallyProvisioned) →
      Delete m store .ok =
        { providerId := H.name, result := .requeue requeueAfter, writes := [] }) := by
  have hrel := Delete_release_phase m store H c .ok hget hcons hmatch himg hon hud
  refine ⟨fun hnp => ?_, fun hext => ⟨fun hpow => ?_, fun hpow => ?_⟩, fun hoth => ?_⟩
  · rw [hrel, deleteWaiting_of_notProvisioned H hnp]; rfl
  · rw [hrel, deleteWaiting_of_externallyProvisioned H hext, hpow]; rfl
  · rw [hrel, deleteWaiting_of_externallyProvisioned H hext, hpow]; rfl
  · rw [hrel, deleteWaiting_of_other H hoth.1 hoth.2]; rfl

/-- Sample claimed host with no remaining payload in the ready state. -/
def hostReadyS : BareMetalHost :=
  { name := "host1", «namespace» := "ns", labels := [("tier", "core")],
    deletionTimestamp := none,
    spec := { online := false, consumerRef := some refS, image := none, userData := none },
    status := { provisioning := { state := StateReady },
                hardwareDetails := none, poweredOn := false, errorMessage := "" } }

/-- Sample claimed payload-free host, externally provisioned, powered on. -/
def hostExtS : BareMetalHost :=
  { hostReadyS with status :=
      { provisioning := { state := StateExternallyProvisioned },
        hardwareDetails := none, poweredOn := true, errorMessage := "" } }

/-- The externally provisioned sample host after power-off. -/
def hostExtOffS : BareMetalHost :=
  { hostExtS with status := { hostExtS.status with poweredOn := false } }

/-- C5 witness: ready-state release, powered-on external wait, powered-off
external release. -/
theorem Delete_release_protocol_witness :
    Delete mAnnS [hostReadyS] .ok =
      { providerId := "host1", result := .ok, writes := [clearConsumerRef hostReadyS] } ∧
    Delete mAnnS [hostExtS] .ok =
      { providerId := "host1", result := .requeue requeueAfter, writes := [] } ∧
    Delete mAnnS [hostExtOffS] .ok =
      { providerId := "host1", result := .ok, writes := [clearConsumerRef hostExtOffS] } :=
  ⟨(Delete_release_protocol mAnnS [hostReadyS] hostReadyS refS (by decide) (by decide)
      (by decide) rfl rfl rfl).1 (by decide),
   ((Delete_release_protocol mAnnS [hostExtS] hostExtS refS (by decide) (by decide)
      (by decide) rfl rfl rfl).2.1 (by decide)).1 rfl,
   ((Delete_release_protocol mAnnS [hostExtOffS] hostExtOffS refS (by decide) (by decide)
      (by decide) rfl rfl rfl).2.1 (by decide)).2 rfl⟩

/-- C10: a not-found outcome from the store's Update is never surfaced by
Delete: clearing the payload still yields the retry signal, and clearing
the ConsumerRef in the release phase still yields success. -/
theorem Delete_tolerates_update_notfound (m : Machine) (store : List BareMetalHost)
    (H : BareMetalHost) (c : ObjectReference)
    (hget : getHost m store = .ok (some H))
    (hcons : H.spec.consumerRef = some c)
    (hmatch : consumerRefMatches c m = true) :
    ((H.spec.image.isSome || H.spec.online || H.spec.userData.isSome) = true →
      Delete m store .notFound =
        { providerId := H.name, result := .requeue 0, writes := [clearPayload H] }) ∧
    ((H.spec.image.isSome || H.spec.online || H.spec.userData.isSome) = false →
      deleteWaiting H = false →
      Delete m store .notFound =
        { providerId := H.name, result := .ok, writes := [clearConsumerRef H] }) := by
  constructor
  · intro hpayload
    simp [Delete, hget, hcons, hmatch, hpayload, clearPayload]
  · intro hpayload hwait
    have himg : H.spec.image = none := by
      rcases him : H.spec.image with _ | i
      · rfl
      · rw [him] at hpayload; simp at hpayload
    have hon : H.spec.online = false := by
      rcases hx : H.spec.online
      · rfl
      · rw [hx] at hpayload; simp at hpayload
    have hud : H.spec.userData = none := by
      rcases hu : H.spec.userData with _ | u
      · rfl
      · rw [hu] at hpayload; simp at hpayload
    have hrel := Delete_release_phase m store H c .notFound hget hcons hmatch himg hon hud
    rw [hrel, hwait]; rfl

/-- C10 witness: the payload-carrying sample host and the ready-state
sample host, both under a not-found update outcome. -/
theorem Delete_tolerates_update_notfound_witness :
    Delete mAnnS [hostS] .notFound =
      { providerId := "host1", result := .requeue 0, writes := [clearPayload hostS] } ∧
    Delete mAnnS [hostReadyS] .notFound =
      { providerId := "host1", result := .ok, writes := [clearConsumerRef hostReadyS] } :=
  ⟨(Delete_tolerates_update_notfound mAnnS [hostS] hostS refS (by decide) (by decide)
      (by decide)).1 (by decide),
   (Delete_tolerates_update_notfound mAnnS [hostReadyS] hostReadyS refS (by decide)
      (by decide) (by decide)).2 (by decide) (by decide)⟩

/-! ## C6 -/

/-- C6: setHostSpec writes the machine's image (and its user-data, with an
empty user-data namespace defaulted to the machine's namespace) only onto a
host with no image yet; a host with an image keeps image and user-data
unchanged; in every case the ConsumerRef becomes the machine's identity and
Online becomes true, and exactly that host value is the one persisted. -/
theorem setHostSpec_binding_invariant (m : Machine) (bm : BareMetalMachine)
    (host : BareMetalHost) (upd : UpdateOutcome) :
    (setHostSpecHost m bm host).spec.consumerRef =
      some { kind := "Machine", «namespace» := m.«namespace», name := m.name,
             apiVersion := m.apiVersion } ∧
    (setHostSpecHost m bm host).spec.online = true ∧
    (host.spec.image = none →
      (setHostSpecHost m bm host).spec.image =
        some { url := bm.spec.image.url, checksum := bm.spec.image.checksum } ∧
      (setHostSpecHost m bm host).spec.userData =
        bm.spec.userData.map (fun u =>
          if u.«namespace» == "" then { u with «namespace» := m.«namespace» } else u)) ∧
    (∀ img, host.spec.image = some img →
      (setHostSpecHost m bm host).spec.image = some img ∧
      (setHostSpecHost m bm host).spec.userData = host.spec.userData) ∧
    (setHostSpec m bm host upd).2.2 = [setHostSpecHost m bm host] := by
  refine ⟨?_, ?_, fun himg => ⟨?_, ?_⟩, fun img himg => ⟨?_, ?_⟩, ?_⟩
  · simp [setHostSpecHost]
  · simp [setHostSpecHost]
  · simp [setHostSpecHost, himg]
  · simp [setHostSpecHost, himg]
    cases bm.spec.userData <;> simp
  · simp [setHostSpecHost, himg]
  · simp [setHostSpecHost, himg]
  · cases upd <;> simp [setHostSpec]

/-- A sample unclaimed host with no image and no ConsumerRef. -/
def hostFreshS : BareMetalHost :=
  { name := "host3", «namespace» := "ns", labels := [("tier", "core")],
    deletionTimestamp := none,
    spec := { online := false, consumerRef := none, image := none, userData := none },
    status := { provisioning := { state := StateReady },
                hardwareDetails := none, poweredOn := false, errorMessage := "" } }

/-- C6 witness: claiming the fresh sample host writes the sample machine's
identity, image and Online flag. -/
theorem setHostSpec_binding_invariant_witness :
    (setHostSpecHost mS bmS hostFreshS).spec.consumerRef = some refS ∧
    (setHostSpecHost mS bmS hostFreshS).spec.online = true ∧
    (setHostSpecHost mS bmS hostFreshS).spec.image =
      some { url := "http://img", checksum := "abc" } ∧
    (setHostSpec mS bmS hostFreshS .ok).2.2 = [setHostSpecHost mS bmS hostFreshS] :=
  ⟨(setHostSpec_binding_invariant mS bmS hostFreshS .ok).1,
   (setHostSpec_binding_invariant mS bmS hostFreshS .ok).2.1,
   ((setHostSpec_binding_invariant mS bmS hostFreshS .ok).2.2.1 rfl).1,
   (setHostSpec_binding_invariant mS bmS hostFreshS .ok).2.2.2.2⟩

/-! ## C9 -/

/-- C9: an invalid provisioning descriptor makes Create record the message
and the invalid-configuration reason on the machine and return plain
success — no error, no retry, no store write, the allocation sequence
unexecuted; a valid descriptor makes Create proceed on the machine with
any prior error state cleared. -/
theorem Create_validation_terminal (m : Machine) (bm : BareMetalMachine)
    (store : List BareMetalHost) (randIdx : Nat) (upd : UpdateOutcome) (now : Nat) :
    (∀ e, bm.spec.IsValid = .error e →
      Create m bm store randIdx upd now =
        { providerId := "", result := .ok, bm := setError bm e, writes := [] } ∧
      (setError bm e).status.errorMessage = some e ∧
      (setError bm e).status.errorReason = some InvalidConfigurationMachineError) ∧
    (bm.spec.IsValid = .ok () →
      Create m bm store randIdx upd now = createMain m (clearError bm) store randIdx upd now ∧
      (clearError bm).status.errorMessage = none ∧
      (clearError bm).status.errorReason = none) := by
  constructor
  · intro e he
    refine ⟨by simp [Create, he], rfl, rfl⟩
  · intro hok
    refine ⟨by simp [Create, hok], ?_, ?_⟩ <;>
      by_cases h : bm.status.errorMessage.isSome || bm.status.errorReason.isSome <;>
      simp_all [clearError]

/-- Sample BareMetalMachine with an empty image URL and stale error state. -/
def bmNoUrlS : BareMetalMachine :=
  { bmS with
    spec := { bmS.spec with image := { url := "", checksum := "abc" } },
    status := { bmS.status with errorMessage := some "old", errorReason := some "old" } }

/-- C9 witness: Create on the invalid sample spec records the error and
succeeds without retry or writes; on the valid sample spec it runs the
main sequence with the error state cleared. -/
theorem Create_validation_terminal_witness :
    Create mS bmNoUrlS [] 0 .ok 5 =
      { providerId := "", result := .ok,
        bm := setError bmNoUrlS "Missing Image.URL in ProviderSpec", writes := [] } ∧
    (setError bmNoUrlS "Missing Image.URL in ProviderSpec").status.errorReason =
      some InvalidConfigurationMachineError ∧
    Create mS bmS [] 0 .ok 5 = createMain mS (clearError bmS) [] 0 .ok 5 :=
  ⟨((Create_validation_terminal mS bmNoUrlS [] 0 .ok 5).1
      "Missing Image.URL in ProviderSpec" (by decide)).1,
   ((Create_validation_terminal mS bmNoUrlS [] 0 .ok 5).1
      "Missing Image.URL in ProviderSpec" (by decide)).2.2,
   ((Create_validation_terminal mS bmS [] 0 .ok 5).2 (by decide)).1⟩

/-! ## C7 -/

/-- Rebuilding a string from its character data is the identity. -/
theorem string_mk_data (s : String) : String.mk s.data = s := by
  cases s
  rfl

/-- A string is empty iff its character data is empty. -/
theorem string_eq_empty_iff (s : String) : s = "" ↔ s.data = [] := by
  rw [String.ext_iff]

/-- Reading back the key just written into a replaced entry. -/
theorem lookupKV_map_replace (l : List (String × String)) (k v : String) :
    lookupKV (l.map (fun p => if p.1 == k then (k, v) else p)) k =
      if (l.find? (fun p => p.1 == k)).isSome then some v else none := by
  induction l with
  | nil => rfl
  | cons p rest ih =>
    rw [List.map_cons]
    by_cases hp : (p.1 == k) = true
    · rw [if_pos hp]
      have h1 : lookupKV ((k, v) :: rest.map (fun p => if p.1 == k then (k, v) else p)) k
          = some v := by
        unfold lookupKV
        rw [List.find?_cons_of_pos (p := fun (q : String × String) => q.1 == k) _ (by simp)]
        rfl
      rw [h1, List.find?_cons_of_pos (p := fun (q : String × String) => q.1 == k) _ hp]
      rfl
    · rw [if_neg hp]
      have h1 : lookupKV (p :: rest.map (fun p => if p.1 == k then (k, v) else p)) k
          = lookupKV (rest.map (fun p => if p.1 == k then (k, v) else p)) k := by
        unfold lookupKV
        rw [List.find?_cons_of_neg (p := fun (q : String × String) => q.1 == k) _ hp]
      rw [h1, ih, List.find?_cons_of_neg (p := fun (q : String × String) => q.1 == k) _ hp]

/-- Reading back a key appended to a list that does not contain it. -/
theorem lookupKV_append_pair (l : List (String × String)) (k v : String)
    (h : l.find? (fun p => p.1 == k) = none) :
    lookupKV (l ++ [(k, v)]) k = some v := by
  simp [lookupKV, List.find?_append, h, List.find?_cons]

/-- setKV followed by lookupKV yields the stored value. -/
theorem lookupKV_setKV (l : List (String × String)) (k v : String) :
    lookupKV (setKV l k v) k = some v := by
  unfold setKV
  by_cases hf : (l.find? (fun p => p.1 == k)).isSome = true
  · rw [if_pos hf, lookupKV_map_replace, if_pos hf]
  · rw [if_neg hf]
    exact lookupKV_append_pair l k v (Option.not_isSome_iff_eq_none.mp hf)

/-- Splitting a separator-free character list yields that list alone. -/
theorem splitChar_no_sep (sep : Char) (cs : List Char) (h : ∀ c ∈ cs, c ≠ sep) :
    splitChar sep cs = [cs] := by
  induction cs with
  | nil => rfl
  | cons c rest ih =>
    have hc : (c == sep) = false := by simpa using h c (List.mem_cons_self c rest)
    have hr := ih (fun x hx => h x (List.mem_cons_of_mem c hx))
    simp [splitChar, hc, hr]

/-- Splitting around a single separator occurrence. -/
theorem splitChar_sep_append (sep : Char) (ns sname : List Char)
    (hns : ∀ c ∈ ns, c ≠ sep) (hname : ∀ c ∈ sname, c ≠ sep) :
    splitChar sep (ns ++ sep :: sname) = [ns, sname] := by
  induction ns with
  | nil => simp [splitChar, splitChar_no_sep sep sname hname]
  | cons c rest ih =>
    have hc : (c == sep) = false := by simpa using hns c (List.mem_cons_self c rest)
    have hr := ih (fun x hx => hns x (List.mem_cons_of_mem c hx))
    simp [splitChar, hc, hr]

/-- Character data of the durable key in the namespaced case. -/
theorem metaKey_data (host : BareMetalHost) (hlen : host.«namespace».length > 0) :
    (MetaNamespaceKeyFunc host).data =
      host.«namespace».data ++ '/' :: host.name.data := by
  unfold MetaNamespaceKeyFunc
  rw [if_pos hlen]
  rw [String.data_append, String.data_append]
  simp

/-- C7 (amended): after ensureAnnotation the machine's annotation holds the
host's durable key — namespace/name when the namespace is non-empty, the
bare name when it is empty — decoding the key yields back the host's
namespace and name, and an annotation already holding the exact key is left
untouched.  Only the in-memory machine changes: ensureAnnotation issues no
store write. -/
theorem ensureAnnot_roundtrip (bm : BareMetalMachine) (host : BareMetalHost)
    (hns : ∀ c ∈ host.«namespace».data, c ≠ '/')
    (hname : ∀ c ∈ host.name.data, c ≠ '/') :
    lookupKV (ensureAnnot bm host).annotations HostAnnotKey =
      some (MetaNamespaceKeyFunc host) ∧
    MetaNamespaceKeyFunc host =
      (if host.«namespace» = "" then host.name
       else host.«namespace» ++ "/" ++ host.name) ∧
    SplitMetaNamespaceKey (MetaNamespaceKeyFunc host) =
      .ok (host.«namespace», host.name) ∧
    (lookupKV bm.annotations HostAnnotKey = some (MetaNamespaceKeyFunc host) →
      ensureAnnot bm host = bm) := by
  have hlen0 : ¬ host.«namespace».length > 0 → host.«namespace» = "" := by
    intro h0
    rw [string_eq_empty_iff]
    have h1 : host.«namespace».data.length = 0 := by
      have h2 : host.«namespace».length = 0 := by omega
      exact h2
    exact List.length_eq_zero.mp h1
  refine ⟨?_, ?_, ?_, ?_⟩
  · unfold ensureAnnot
    cases hl : lookupKV bm.annotations HostAnnotKey with
    | none => simp [lookupKV_setKV]
    | some existing =>
      by_cases he : (existing == MetaNamespaceKeyFunc host) = true
      · have : existing = MetaNamespaceKeyFunc host := by simpa using he
        simp [he, hl, this]
      · have he' : (existing == MetaNamespaceKeyFunc host) = false := by simpa using he
        simp [he', lookupKV_setKV]
  · by_cases h0 : host.«namespace».length > 0
    · have hne : ¬ host.«namespace» = "" := by
        intro h
        rw [string_eq_empty_iff] at h
        simp [String.length, h] at h0
      unfold MetaNamespaceKeyFunc
      rw [if_pos h0, if_neg hne]
    · have he := hlen0 h0
      unfold MetaNamespaceKeyFunc
      rw [if_neg h0, if_pos he]
  · by_cases h0 : host.«namespace».length > 0
    · have hdata := metaKey_data host h0
      unfold SplitMetaNamespaceKey
      rw [hdata, splitChar_sep_append '/' _ _ hns hname]
      simp [string_mk_data]
    · have he := hlen0 h0
      have hkey : MetaNamespaceKeyFunc host = host.name := by
        unfold MetaNamespaceKeyFunc
        rw [if_neg h0]
      rw [hkey]
      unfold SplitMetaNamespaceKey
      rw [splitChar_no_sep '/' _ hname]
      simp [string_mk_data, he]
  · intro hl
    simp [ensureAnnot, hl]

/-- C7 witness: the fresh sample host under the sample machine. -/
theorem ensureAnnot_roundtrip_witness :
    lookupKV (ensureAnnot bmS hostFreshS).annotations HostAnnotKey =
      some (MetaNamespaceKeyFunc hostFreshS) ∧
    SplitMetaNamespaceKey (MetaNamespaceKeyFunc hostFreshS) = .ok ("ns", "host3") :=
  ⟨(ensureAnnot_roundtrip bmS hostFreshS (by decide) (by decide)).1,
   (ensureAnnot_roundtrip bmS hostFreshS (by decide) (by decide)).2.2.1⟩

/-- A sample host with an empty namespace. -/
def hostNoNsS : BareMetalHost :=
  { hostFreshS with name := "host0", «namespace» := "" }

/-- C7 counterexample to the claim as stated: for a host with an empty
namespace the stored key is the bare name, not namespace/name. -/
theorem ensureAnnot_key_format_cex :
    lookupKV (ensureAnnot bmS hostNoNsS).annotations HostAnnotKey = some "host0" ∧
    hostNoNsS.«namespace» ++ "/" ++ hostNoNsS.name ≠ "host0" := by
  decide

/-! ## C8 -/

/-- The MatchExpressions loop fails whenever any of its entries fails to
construct. -/
theorem matchExprReqs_error_of_mem (rs : List HostSelectorRequirement)
    (r : HostSelectorRequirement) (hr : r ∈ rs)
    (hfail : exceptHasError (exprRequirement r.key r.operator r.values) = true) :
    ∃ e, matchExprReqs rs = .error e := by
  induction rs with
  | nil => cases hr
  | cons a rest ih =>
    cases hex : exprRequirement a.key a.operator a.values with
    | error e => exact ⟨e, by simp [matchExprReqs, hex]⟩
    | ok r' =>
      rcases List.mem_cons.mp hr with rfl | hmem
      · rw [hex] at hfail
        simp [exceptHasError] at hfail
      · obtain ⟨e, he⟩ := ih hmem
        exact ⟨e, by simp [matchExprReqs, hex, he]⟩

/-- A failing expression requirement makes the whole requirement build
fail, whichever loop errors first. -/
theorem hostRequirements_error_of_expr (bm : BareMetalMachine)
    (h : ∃ r ∈ bm.spec.hostSelector.matchExpressions,
      exceptHasError (exprRequirement r.key r.operator r.values) = true) :
    ∃ e, hostRequirements bm = .error e := by
  obtain ⟨r, hr, hfail⟩ := h
  obtain ⟨e, he⟩ := matchExprReqs_error_of_mem _ r hr hfail
  unfold hostRequirements
  cases hml : matchLabelReqs bm.spec.hostSelector.matchLabels with
  | error e' => exact ⟨e', by simp⟩
  | ok rs1 => exact ⟨e, by simp [he]⟩

/-- C8: selector construction fails closed and operator case is folded.
A hostRequirements error aborts chooseHost with that error and no
candidate; any malformed expression requirement forces such an error; the
requirement chooseHost constructs depends only on the lower-cased operator;
and an operator whose lower-cased form is recognized is never rejected as
unrecognized. -/
theorem chooseHost_fails_closed (m : Machine) (bm : BareMetalMachine)
    (store : List BareMetalHost) (randIdx : Nat) :
    (∀ e, hostRequirements bm = .error e →
      chooseHost m bm store randIdx = (.error e, [])) ∧
    ((∃ r ∈ bm.spec.hostSelector.matchExpressions,
        exceptHasError (exprRequirement r.key r.operator r.values) = true) →
      ∃ e, chooseHost m bm store randIdx = (.error e, [])) ∧
    (∀ k1 op1 op2 vals, toLowerAscii op1 = toLowerAscii op2 →
      exprRequirement k1 op1 vals = exprRequirement k1 op2 vals) ∧
    (∀ k1 op vals, recognizedOp (toLowerAscii op) = true →
      exprRequirement k1 op vals ≠ .error "operator is not recognized") := by
  refine ⟨?_, ?_, ?_, ?_⟩
  · intro e he
    simp [chooseHost, he]
  · intro h
    obtain ⟨e, he⟩ := hostRequirements_error_of_expr bm h
    exact ⟨e, by simp [chooseHost, he]⟩
  · intro k1 op1 op2 vals h
    unfold exprRequirement
    rw [h]
  · intro k1 op vals hrec
    unfold exprRequirement newRequirement
    repeat' split
    all_goals simp_all [recognizedOp]

/-- C8 witness: the malformed sample selector aborts chooseHost, and the
mixed-case operator In is accepted exactly like its lower-case form. -/
theorem chooseHost_fails_closed_witness :
    (∃ e, chooseHost mS bmBadSel [hostS] 0 = (.error e, [])) ∧
    exprRequirement "k" "In" ["v"] ≠ .error "operator is not recognized" ∧
    exprRequirement "k" "In" ["v"] = exprRequirement "k" "IN" ["v"] :=
  ⟨(chooseHost_fails_closed mS bmBadSel [hostS] 0).2.1
      ⟨⟨"k", "Foo", ["v"]⟩, by decide, by decide⟩,
   (chooseHost_fails_closed mS bmBadSel [hostS] 0).2.2.2 "k" "In" ["v"] (by decide),
   (chooseHost_fails_closed mS bmBadSel [hostS] 0).2.2.1 "k" "In" "IN" ["v"] (by decide)⟩

end Capbm
